import Mathlib

/-!
Verification of the migration/versioning subsystem of Wareflow EMS
(src/database/migration_manager.py, src/database/version.py,
src/database/migration_validation.py, src/database/migrations/add_soft_delete.py).

The Python code is shallowly embedded: the database is a record holding the
migration ledger, an abstract schema, and the latest recorded application
version; procedures that may raise are modelled with explicit outcome values;
`try/except` handlers are explicit matches on those outcomes.  The modules
`database/migration_model.py`, `database/version_model.py` and
`database/migrations/base.py` are referenced by the sources but absent from
the tree; their operations are modelled from the specification text and are
marked as such in their doc comments.
-/

namespace Wareflow

/-- Current application version constant (`APP_VERSION` in src/database/version.py). -/
def APP_VERSION : String := "0.1.0"

/-- Current schema version constant (`SCHEMA_VERSION` in src/database/version.py). -/
def SCHEMA_VERSION : Nat := 1

/-- Abstract database schema state: a list of change markers.  A migration
transforms it through its `up()` procedure. -/
abbrev Schema := List String

/-- One row of the migration ledger table (spec section 3: Migration record
\x7bname, batch, applied_at\x7d; the `applied_at` timestamp is not modelled because
no verified claim depends on it). -/
structure MigrationRecord where
  name : String
  batch : Nat
deriving Repr, DecidableEq

/-- The migration ledger: append-only list of migration records. -/
abbrev Ledger := List MigrationRecord

/-- A migration definition (spec section 4.1: each migration exposes a unique
`name`, an `up()` procedure, an optional `down()`, and optional
`pre_check()`/`post_check()` predicates).  The optional checks are `none` when
the migration object has no such attribute (the Python code guards each call
with `hasattr`); otherwise they are functions of the schema that either raise
(`Except.error`) or return a boolean.  The `up` procedure returns the error
message it raised (if any) together with the schema it left behind, so a raise
part-way through keeps the mutations performed up to that point. -/
structure MigrationDef where
  name : String
  pre : Option (Schema → Except String Bool)
  up : Schema → Option String × Schema
  post : Option (Schema → Except String Bool)

/-- Database state visible to the migration subsystem: the ledger, the schema,
and the latest recorded application version (`none` when the version table is
absent or empty). -/
structure DbState where
  ledger : Ledger
  schema : Schema
  version : Option String
deriving Repr, DecidableEq

/-- Ghost trace of one migration run: names whose `up()` was invoked, names
whose `up()` returned successfully, and names whose `down()` was invoked. -/
structure RunTrace where
  upCalls : List String
  upOks : List String
  downCalls : List String
deriving Repr, DecidableEq

/-- The empty run trace. -/
def RunTrace.empty : RunTrace := ⟨[], [], []⟩

/-- Concatenation of run traces, componentwise. -/
def RunTrace.app (t u : RunTrace) : RunTrace :=
  ⟨t.upCalls ++ u.upCalls, t.upOks ++ u.upOks, t.downCalls ++ u.downCalls⟩

/-- Modelled from the spec: `get_applied_migrations` from the absent module
`database/migration_model.py` — the migration names recorded in the ledger. -/
def get_applied_migrations (L : Ledger) : List String :=
  L.map (fun r => r.name)

/-- Modelled from the spec: `get_last_batch_number` from the absent module
`database/migration_model.py` — the largest batch number in the ledger
("batch groups migrations applied together in one run"), 0 when empty. -/
def get_last_batch_number (L : Ledger) : Nat :=
  L.foldl (fun a r => max a r.batch) 0

/-- Modelled from the spec: `record_migration` from the absent module
`database/migration_model.py` — appends a \x7bname, batch\x7d row to the ledger.
The spec invariant "a migration name appears at most once in the ledger"
makes recording an already-present name a no-op. -/
def record_migration (name : String) (batch : Nat) (L : Ledger) : Ledger :=
  if name ∈ get_applied_migrations L then L else L ++ [⟨name, batch⟩]

/-- Modelled from the spec: the lexicographic-by-name ordering of migration
definitions ("execute them in a deterministic order (lexicographic by name)"),
realised as insertion into a sorted list. -/
def insertByName (m : MigrationDef) : List MigrationDef → List MigrationDef
  | [] => [m]
  | x :: xs => if m.name ≤ x.name then m :: x :: xs else x :: insertByName m xs

/-- Modelled from the spec: sorting a list of migration definitions
lexicographically by name (insertion sort). -/
def sortByName : List MigrationDef → List MigrationDef
  | [] => []
  | x :: xs => insertByName x (sortByName xs)

/-- Modelled from the spec: `get_pending_migrations` from the absent module
`database/migrations/base.py` — "determine the subset not yet present in the
ledger" among the discovered migration definitions, ordered lexicographically
by name. -/
def get_pending_migrations (defs : List MigrationDef) (L : Ledger) : List MigrationDef :=
  sortByName (defs.filter (fun m => decide (m.name ∉ get_applied_migrations L)))

/-- Modelled from the spec: `run_migration` from the absent module
`database/migrations/base.py` — invokes the migration's `up()` and, per the
spec's "record each success individually", records the migration under the
given batch number when `up()` succeeds; a raise inside `up()` yields `false`
and records nothing.  (Its caller `run_migrations` in src/cli/update.py relies
on `run_migration` itself recording: it performs no separate record step.) -/
def run_migration (m : MigrationDef) (batch : Nat) (sch : Schema) (L : Ledger) :
    Bool × Schema × Ledger :=
  match m.up sch with
  | (none, sch2) => (true, sch2, record_migration m.name batch L)
  | (some _, sch2) => (false, sch2, L)

/-- `MigrationManager._apply_single_migration`: calls `run_migration` inside a
`try/except` that converts any raise into `false`; in this model
`run_migration` already returns its success as a boolean. -/
def applySingleMigration (m : MigrationDef) (batch : Nat) (sch : Schema) (L : Ledger) :
    Bool × Schema × Ledger :=
  run_migration m batch sch L

/-- Outcome of the guarded pre-check
`hasattr(migration, "pre_check") and not migration.pre_check()`: a migration
without the attribute counts as passing. -/
def preOutcome (m : MigrationDef) (sch : Schema) : Except String Bool :=
  match m.pre with
  | none => Except.ok true
  | some f => f sch

/-- Outcome of the guarded post-check
`hasattr(migration, "post_check") and not migration.post_check()`: a migration
without the attribute counts as passing. -/
def postOutcome (m : MigrationDef) (sch : Schema) : Except String Bool :=
  match m.post with
  | none => Except.ok true
  | some f => f sch

/-- One iteration of the migration loop of `MigrationManager._perform_migration`
(src/database/migration_manager.py, lines 105-136): guarded pre-check, `up()`
via `_apply_single_migration`, guarded post-check, then `record_migration`.
Returns `none` when the iteration completed (with the updated schema and
ledger), or `some msg` with the failure message of the early exit; a raise
inside a check surfaces as the outer handler message "Migration failed: \x7be\x7d".
The trace records whether `up()` was invoked and whether it succeeded. -/
def performStep (batch : Nat) (m : MigrationDef) (sch : Schema) (L : Ledger) :
    Option String × Schema × Ledger × RunTrace :=
  match preOutcome m sch with
  | Except.error e => (some ("Migration failed: " ++ e), sch, L, RunTrace.empty)
  | Except.ok false =>
      (some ("Migration pre-check failed: " ++ m.name), sch, L, RunTrace.empty)
  | Except.ok true =>
      match applySingleMigration m batch sch L with
      | (false, sch2, L2) =>
          (some ("Migration failed: " ++ m.name), sch2, L2, ⟨[m.name], [], []⟩)
      | (true, sch2, L2) =>
          match postOutcome m sch2 with
          | Except.error e =>
              (some ("Migration failed: " ++ e), sch2, L2, ⟨[m.name], [m.name], []⟩)
          | Except.ok false =>
              (some ("Migration post-check failed: " ++ m.name), sch2, L2,
                ⟨[m.name], [m.name], []⟩)
          | Except.ok true =>
              (none, sch2, record_migration m.name batch L2, ⟨[m.name], [m.name], []⟩)

/-- The migration loop of `MigrationManager._perform_migration` (lines
105-136), processed in list order: iterate `performStep` until the list is
exhausted or a step exits early, concatenating the traces. -/
def performLoop (batch : Nat) : List MigrationDef → Schema → Ledger →
    Option String × Schema × Ledger × RunTrace
  | [], sch, L => (none, sch, L, RunTrace.empty)
  | m :: rest, sch, L =>
    match performStep batch m sch L with
    | (some msg, sch2, L2, tr) => (some msg, sch2, L2, tr)
    | (none, sch2, L2, tr) =>
        match performLoop batch rest sch2 L2 with
        | (r, sch3, L3, tr2) => (r, sch3, L3, tr.app tr2)

/-- `MigrationManager._update_version_record`: after a successful run, set the
stored application version to `APP_VERSION` when it differs; when it already
matches, only the `applied_at` timestamps of the last batch are refreshed (not
modelled).  Its own `try/except` makes it total. -/
def updateVersionRecord (st : DbState) : DbState :=
  if st.version = some APP_VERSION then st
  else { st with version := some APP_VERSION }

/-- `MigrationManager._perform_migration` (src/database/migration_manager.py,
lines 89-149): create a pre-migration backup, compute the batch number as one
more than the last recorded batch, run the loop, and update the version record
after all migrations succeed.  `backup = some e` models `create_backup`
raising `e`; the surrounding `try/except` (lines 146-149) converts that raise
into `(False, "Migration failed: e")`. -/
def performMigration (backup : Option String) (pending : List MigrationDef)
    (st : DbState) : (Bool × String) × DbState × RunTrace :=
  match backup with
  | some e => ((false, "Migration failed: " ++ e), st, RunTrace.empty)
  | none =>
    let batch := get_last_batch_number st.ledger + 1
    match performLoop batch pending st.schema st.ledger with
    | (some msg, sch2, L2, tr) =>
        ((false, msg), { st with schema := sch2, ledger := L2 }, tr)
    | (none, sch2, L2, tr) =>
        let st2 := updateVersionRecord { st with schema := sch2, ledger := L2 }
        ((true, "Successfully applied " ++ toString pending.length ++ " migration(s)"),
          st2, tr)

/-- Body of `MigrationManager._perform_migration` without its lines 146-149
exception handler: an uncaught raise (here: only `create_backup`) surfaces as
`Except.error` instead of a result pair. -/
def performMigrationRaw (backup : Option String) (pending : List MigrationDef)
    (st : DbState) : Except String (Bool × String) × DbState × RunTrace :=
  match backup with
  | some e => (Except.error e, st, RunTrace.empty)
  | none =>
    let batch := get_last_batch_number st.ledger + 1
    match performLoop batch pending st.schema st.ledger with
    | (some msg, sch2, L2, tr) =>
        (Except.ok (false, msg), { st with schema := sch2, ledger := L2 }, tr)
    | (none, sch2, L2, tr) =>
        let st2 := updateVersionRecord { st with schema := sch2, ledger := L2 }
        (Except.ok
          (true, "Successfully applied " ++ toString pending.length ++ " migration(s)"),
          st2, tr)

/-- `initialize_version_tracking` (src/database/version.py): create the version
table when absent, then, when the recorded version differs from `APP_VERSION`,
write `APP_VERSION` through `set_version`.  `set_version` is modelled from the
spec ("exactly one current row is meaningfully queried (latest by timestamp)"
for the absent module `database/version_model.py`): a successful write makes
`APP_VERSION` the current version.  `setVersionFails = true` injects a raise
inside that write, caught by the internal handler, leaving the version as it
was. -/
def initializeVersionTracking (setVersionFails : Bool) (st : DbState) : DbState :=
  if st.version = some APP_VERSION then st
  else if setVersionFails then st
  else { st with version := some APP_VERSION }

/-- `check_migration_needed` (src/database/version.py): true iff no version is
recorded or the recorded version differs from `APP_VERSION`; its own handler
returns true on error. -/
def checkMigrationNeeded (st : DbState) : Bool :=
  match st.version with
  | none => true
  | some v => v ≠ APP_VERSION

/-- Environment of one `check_and_migrate` call: the migration definitions
discovered in the migrations directory, the outcome of `create_backup`
(`some e` raises `e`), an injected failure of the version write inside
`initialize_version_tracking`, and an injected raise inside migration
discovery (caught by `_get_pending_migrations`, which then returns the empty
list). -/
structure Env where
  defs : List MigrationDef
  backup : Option String
  setVersionFails : Bool
  discoverFails : Bool

/-- `MigrationManager._get_pending_migrations` (lines 78-88): returns the
pending migrations, or the empty list when discovery raises. -/
def getPendingCaught (env : Env) (L : Ledger) : List MigrationDef :=
  if env.discoverFails then [] else get_pending_migrations env.defs L

/-- `MigrationManager.check_and_migrate` (src/database/migration_manager.py,
lines 40-76): initialize version tracking, return early when no migration is
needed, compute the pending list, and either report it (`auto_migrate=False`)
or perform the migration. -/
def checkAndMigrate (env : Env) (autoMigrate : Bool) (st : DbState) :
    (Bool × String) × DbState × RunTrace :=
  let st1 := initializeVersionTracking env.setVersionFails st
  if checkMigrationNeeded st1 = false then
    ((true, "Database is up to date"), st1, RunTrace.empty)
  else
    let pending := getPendingCaught env st1.ledger
    if pending.isEmpty then
      ((true, "Version updated (no schema changes)"), updateVersionRecord st1,
        RunTrace.empty)
    else if autoMigrate = false then
      ((false,
        "Migration required: " ++ toString pending.length ++ " migration(s) pending"),
        st1, RunTrace.empty)
    else
      performMigration env.backup pending st1

/-- One element of a sequence of migration runs: the backup outcome and the
pending list handed to `MigrationManager._perform_migration`. -/
structure RunSpec where
  backup : Option String
  pending : List MigrationDef

/-- A sequence of calls to `MigrationManager._perform_migration`, threading the
database state and accumulating the names whose `up()` returned successfully. -/
def runSeq : List RunSpec → DbState → DbState × List String
  | [], st => (st, [])
  | r :: rest, st =>
    match performMigration r.backup r.pending st with
    | (_, st1, tr) =>
        match runSeq rest st1 with
        | (st2, oks) => (st2, tr.upOks ++ oks)

/-- Exception type of src/database/migration_validation.py
(`MigrationValidationError`): a message together with the failed check name. -/
structure MigrationValidationError where
  message : String
  check_name : String
deriving Repr, DecidableEq

/-- `check_no_active_connections` (src/database/migration_validation.py, lines
181-192): the body is a bare `pass` — it inspects nothing, mutates nothing and
raises nothing, returning `None` for every database state. -/
def check_no_active_connections (st : DbState) :
    Except MigrationValidationError (Unit × DbState) :=
  Except.ok ((), st)

/-- Severity of a log record emitted through `utils.logging_config`. -/
inductive LogLevel where
  | info
  | warning
  | error
deriving Repr, DecidableEq

/-- One log record: severity and message. -/
structure LogEntry where
  level : LogLevel
  msg : String
deriving Repr, DecidableEq

/-- Concrete table layout of the SQLite database: table names with their
column names. -/
abbrev TableSchema := List (String × List String)

/-- `rollback` of src/database/migrations/add_soft_delete.py (lines 142-158):
the body is three `logger.warning` calls followed by two `logger.error` calls;
no database statement is executed, so the table layout is returned unchanged. -/
def softDeleteRollback (db : TableSchema) : TableSchema × List LogEntry :=
  (db,
    [⟨LogLevel.warning, "Starting soft delete ROLLBACK..."⟩,
     ⟨LogLevel.warning, "WARNING: This will permanently delete all soft delete metadata!"⟩,
     ⟨LogLevel.warning, "Soft-deleted records will become permanently lost."⟩,
     ⟨LogLevel.error, "Rollback not implemented for safety reasons."⟩,
     ⟨LogLevel.error, "Soft delete columns should be kept to maintain data integrity."⟩])

/-! ### Concrete sample values used to instantiate the theorems -/

/-- A sample migration whose `up()` succeeds and has no optional checks. -/
def demoUp : MigrationDef :=
  ⟨"20260101_000000_demo", none, fun s => (none, "demo" :: s), none⟩

/-- A sample migration whose `up()` succeeds but whose `post_check()` returns
false. -/
def demoPostFail : MigrationDef :=
  ⟨"20260102_000000_postfail", none, fun s => (none, "pf" :: s),
    some (fun _ => Except.ok false)⟩

/-- A sample migration whose `pre_check()` returns false. -/
def demoPreFail : MigrationDef :=
  ⟨"20260103_000000_prefail", some (fun _ => Except.ok false),
    fun s => (none, "pre" :: s), none⟩

/-- A sample migration whose `up()` raises. -/
def demoUpRaise : MigrationDef :=
  ⟨"20260104_000000_upraise", none, fun s => (some "boom", s), none⟩

/-- A fresh database state: empty ledger, empty schema, no recorded version. -/
def demoSt0 : DbState := ⟨[], [], none⟩

/-- A sample environment with one discovered migration and no injected
failures. -/
def demoEnv : Env := ⟨[demoUp], none, false, false⟩

/-- A sample table layout containing the soft-delete columns. -/
def demoTables : TableSchema :=
  [("employees", ["id", "deleted_at", "deleted_by", "deletion_reason"])]

/-- A sample ledger that already records the sample migration `demoUp`. -/
def demoLedger1 : Ledger := [⟨"20260101_000000_demo", 1⟩]

/-- A sample database state whose ledger already records `demoUp`. -/
def demoSt1 : DbState := ⟨demoLedger1, [], none⟩

/-- A sample run over `demoSt1` with the pending list computed from its
ledger. -/
def demoRun1 : (Bool × String) × DbState × RunTrace :=
  performMigration none
    (get_pending_migrations [demoUp, demoPostFail] demoSt1.ledger) demoSt1

/-- A sample successful run applying `demoUp` to a fresh state. -/
def demoRun0 : (Bool × String) × DbState × RunTrace :=
  performMigration none [demoUp] demoSt0

/-! ### Basic lemmas about the ledger operations and traces -/

theorem RunTrace.empty_app (t : RunTrace) : RunTrace.empty.app t = t := rfl

theorem RunTrace.app_empty (t : RunTrace) : t.app RunTrace.empty = t := by
  simp [RunTrace.app, RunTrace.empty]

theorem RunTrace.app_assoc (t u v : RunTrace) :
    (t.app u).app v = t.app (u.app v) := by
  simp [RunTrace.app]

theorem mem_applied_record (n name : String) (batch : Nat) (L : Ledger) :
    n ∈ get_applied_migrations (record_migration name batch L) ↔
      n ∈ get_applied_migrations L ∨ n = name := by
  unfold record_migration
  by_cases h : name ∈ get_applied_migrations L
  · rw [if_pos h]
    constructor
    · exact Or.inl
    · rintro (h2 | h2)
      · exact h2
      · exact h2 ▸ h
  · rw [if_neg h]
    simp [get_applied_migrations]

theorem record_mem (rec : MigrationRecord) (name : String) (batch : Nat) (L : Ledger) :
    rec ∈ record_migration name batch L → rec ∈ L ∨ rec = ⟨name, batch⟩ := by
  unfold record_migration
  split
  · exact Or.inl
  · intro h
    rcases List.mem_append.mp h with h2 | h2
    · exact Or.inl h2
    · exact Or.inr (List.mem_singleton.mp h2)

theorem record_of_mem {name : String} {L : Ledger} (batch : Nat)
    (h : name ∈ get_applied_migrations L) :
    record_migration name batch L = L := by
  unfold record_migration
  rw [if_pos h]

/-! ### Structural lemmas about the migration loop -/

/-- Characterisation of what one loop iteration does to the ledger and trace:
the names recorded afterwards are the names recorded before plus the names
whose `up()` succeeded in this step; every new ledger row carries the batch
number of this run; `down()` is never invoked; and `up()` is only invoked on
the migration being processed. -/
theorem performStep_spec (batch : Nat) (m : MigrationDef) (sch : Schema) (L : Ledger)
    (r : Option String) (sch2 : Schema) (L2 : Ledger) (tr : RunTrace)
    (h : performStep batch m sch L = (r, sch2, L2, tr)) :
    (∀ n, n ∈ get_applied_migrations L2 ↔
        n ∈ get_applied_migrations L ∨ n ∈ tr.upOks) ∧
    (∀ rec, rec ∈ L2 → rec ∈ L ∨ rec.batch = batch) ∧
    tr.downCalls = [] ∧
    (∀ n, n ∈ tr.upCalls → n = m.name) ∧
    (∀ n, n ∈ tr.upOks → n ∈ tr.upCalls) := by
  unfold performStep at h
  split at h
  · rcases h with ⟨rfl, rfl, rfl, rfl⟩
    exact ⟨by simp [RunTrace.empty], fun rec h2 => Or.inl h2, rfl,
      by simp [RunTrace.empty], by simp [RunTrace.empty]⟩
  · rcases h with ⟨rfl, rfl, rfl, rfl⟩
    exact ⟨by simp [RunTrace.empty], fun rec h2 => Or.inl h2, rfl,
      by simp [RunTrace.empty], by simp [RunTrace.empty]⟩
  · rename_i hpre
    split at h
    · rename_i sch3 L3 happ
      rcases h with ⟨rfl, rfl, rfl, rfl⟩
      unfold applySingleMigration run_migration at happ
      split at happ
      · simp at happ
      · simp only [Prod.mk.injEq, true_and] at happ
        obtain ⟨h1, h2⟩ := happ
        subst h1
        subst h2
        exact ⟨by simp, fun rec h2 => Or.inl h2, rfl, by simp, by simp⟩
    · rename_i sch3 L3 happ
      unfold applySingleMigration run_migration at happ
      split at happ
      · rename_i schU hup
        simp only [Prod.mk.injEq, true_and] at happ
        obtain ⟨h1, h2⟩ := happ
        subst h1
        subst h2
        split at h
        · rcases h with ⟨rfl, rfl, rfl, rfl⟩
          refine ⟨?_, ?_, rfl, by simp, by simp⟩
          · intro n
            simp [mem_applied_record]
          · intro rec hrec
            rcases record_mem rec m.name batch L hrec with h2 | h2
            · exact Or.inl h2
            · exact Or.inr (by rw [h2])
        · rcases h with ⟨rfl, rfl, rfl, rfl⟩
          refine ⟨?_, ?_, rfl, by simp, by simp⟩
          · intro n
            simp [mem_applied_record]
          · intro rec hrec
            rcases record_mem rec m.name batch L hrec with h2 | h2
            · exact Or.inl h2
            · exact Or.inr (by rw [h2])
        · rcases h with ⟨rfl, rfl, rfl, rfl⟩
          have hcoll :
              record_migration m.name batch (record_migration m.name batch L) =
                record_migration m.name batch L :=
            record_of_mem batch ((mem_applied_record m.name m.name batch L).mpr
              (Or.inr rfl))
          rw [hcoll]
          refine ⟨?_, ?_, rfl, by simp, by simp⟩
          · intro n
            simp [mem_applied_record]
          · intro rec hrec
            rcases record_mem rec m.name batch L hrec with h2 | h2
            · exact Or.inl h2
            · exact Or.inr (by rw [h2])
      · simp at happ

theorem performLoop_nil (batch : Nat) (sch : Schema) (L : Ledger) :
    performLoop batch [] sch L = (none, sch, L, RunTrace.empty) := rfl

theorem performLoop_cons (batch : Nat) (m : MigrationDef) (rest : List MigrationDef)
    (sch : Schema) (L : Ledger) :
    performLoop batch (m :: rest) sch L =
      match performStep batch m sch L with
      | (some msg, sch2, L2, tr) => (some msg, sch2, L2, tr)
      | (none, sch2, L2, tr) =>
          match performLoop batch rest sch2 L2 with
          | (r, sch3, L3, tr2) => (r, sch3, L3, tr.app tr2) := rfl

/-- Characterisation of what the whole loop does to the ledger and trace:
the names recorded afterwards are the names recorded before plus the names
whose `up()` succeeded during the run; every new ledger row carries this run's
batch number; `down()` is never invoked; `up()` is only invoked on migrations
of the list; and every successful `up()` was an invoked `up()`. -/
theorem performLoop_spec (batch : Nat) (migs : List MigrationDef) :
    ∀ (sch : Schema) (L : Ledger) (r : Option String) (sch2 : Schema)
      (L2 : Ledger) (tr : RunTrace),
    performLoop batch migs sch L = (r, sch2, L2, tr) →
    (∀ n, n ∈ get_applied_migrations L2 ↔
        n ∈ get_applied_migrations L ∨ n ∈ tr.upOks) ∧
    (∀ rec, rec ∈ L2 → rec ∈ L ∨ rec.batch = batch) ∧
    tr.downCalls = [] ∧
    (∀ n, n ∈ tr.upCalls → n ∈ migs.map (fun m => m.name)) ∧
    (∀ n, n ∈ tr.upOks → n ∈ tr.upCalls) := by
  induction migs with
  | nil =>
    intro sch L r sch2 L2 tr h
    rw [performLoop_nil] at h
    rcases h with ⟨rfl, rfl, rfl, rfl⟩
    exact ⟨by simp [RunTrace.empty], fun rec h2 => Or.inl h2, rfl,
      by simp [RunTrace.empty], by simp [RunTrace.empty]⟩
  | cons m rest ih =>
    intro sch L r sch2 L2 tr h
    rw [performLoop_cons] at h
    rcases hstep : performStep batch m sch L with ⟨r1, sch1, L1, tr1⟩
    rw [hstep] at h
    obtain ⟨ha1, ha2, ha3, ha4, ha5⟩ := performStep_spec batch m sch L r1 sch1 L1 tr1 hstep
    cases r1 with
    | some msg =>
      rcases h with ⟨rfl, rfl, rfl, rfl⟩
      exact ⟨ha1, ha2, ha3, fun n hn => by simp [ha4 n hn], ha5⟩
    | none =>
      dsimp only at h
      rcases hloop : performLoop batch rest sch1 L1 with ⟨r2, schB, LB, trB⟩
      rw [hloop] at h
      rcases h with ⟨rfl, rfl, rfl, rfl⟩
      obtain ⟨hb1, hb2, hb3, hb4, hb5⟩ :=
        ih sch1 L1 r2 schB LB trB hloop
      refine ⟨?_, ?_, ?_, ?_, ?_⟩
      · intro n
        rw [hb1 n]
        simp only [RunTrace.app, List.mem_append]
        rw [ha1 n]
        tauto
      · intro rec hrec
        rcases hb2 rec hrec with h2 | h2
        · exact ha2 rec h2
        · exact Or.inr h2
      · simp [RunTrace.app, ha3, hb3]
      · intro n hn
        simp only [RunTrace.app, List.mem_append] at hn
        rcases hn with hn | hn
        · simp [ha4 n hn]
        · simp only [List.map_cons, List.mem_cons]
          exact Or.inr (hb4 n hn)
      · intro n hn
        simp only [RunTrace.app, List.mem_append] at hn ⊢
        rcases hn with hn | hn
        · exact Or.inl (ha5 n hn)
        · exact Or.inr (hb5 n hn)

/-- The loop on a concatenated list runs the first part and, when it
completes, continues with the second part from the state reached. -/
theorem performLoop_append (batch : Nat) (xs ys : List MigrationDef) :
    ∀ (sch : Schema) (L : Ledger),
    performLoop batch (xs ++ ys) sch L =
      match performLoop batch xs sch L with
      | (some msg, sch2, L2, tr) => (some msg, sch2, L2, tr)
      | (none, sch2, L2, tr) =>
          match performLoop batch ys sch2 L2 with
          | (r, sch3, L3, tr2) => (r, sch3, L3, tr.app tr2) := by
  induction xs with
  | nil =>
    intro sch L
    rcases hy : performLoop batch ys sch L with ⟨r, a, b, t⟩
    simp [performLoop_nil, hy, RunTrace.empty_app]
  | cons x xs ih =>
    intro sch L
    rw [List.cons_append, performLoop_cons, performLoop_cons]
    rcases hstep : performStep batch x sch L with ⟨r1, sch1, L1, tr1⟩
    cases r1 with
    | some msg => rfl
    | none =>
      dsimp only
      rw [ih sch1 L1]
      rcases hxs : performLoop batch xs sch1 L1 with ⟨r2, a, b, t⟩
      cases r2 with
      | some msg => rfl
      | none =>
        rcases hys : performLoop batch ys a b with ⟨r3, c, d, t2⟩
        simp [RunTrace.app_assoc]

/-! ### Lemmas about the lexicographic ordering of pending migrations -/

theorem mem_insertByName (m x : MigrationDef) (l : List MigrationDef) :
    x ∈ insertByName m l ↔ x = m ∨ x ∈ l := by
  induction l with
  | nil => simp [insertByName]
  | cons y ys ih =>
    unfold insertByName
    split
    · simp
    · simp only [List.mem_cons, ih]
      tauto

theorem mem_sortByName (x : MigrationDef) (l : List MigrationDef) :
    x ∈ sortByName l ↔ x ∈ l := by
  induction l with
  | nil => simp [sortByName]
  | cons y ys ih => simp [sortByName, mem_insertByName, ih]

theorem pairwise_insertByName (m : MigrationDef) (l : List MigrationDef)
    (h : l.Pairwise (fun a b => a.name ≤ b.name)) :
    (insertByName m l).Pairwise (fun a b => a.name ≤ b.name) := by
  induction l with
  | nil => simp [insertByName]
  | cons y ys ih =>
    rcases List.pairwise_cons.mp h with ⟨hy, hys⟩
    unfold insertByName
    split
    · rename_i hle
      refine List.pairwise_cons.mpr ⟨?_, h⟩
      intro z hz
      rcases List.mem_cons.mp hz with rfl | hz
      · exact hle
      · exact le_trans hle (hy z hz)
    · rename_i hgt
      refine List.pairwise_cons.mpr ⟨?_, ih hys⟩
      intro z hz
      rcases (mem_insertByName m z ys).mp hz with rfl | hz
      · exact le_of_not_le hgt
      · exact hy z hz

theorem pairwise_sortByName (l : List MigrationDef) :
    (sortByName l).Pairwise (fun a b => a.name ≤ b.name) := by
  induction l with
  | nil => simp [sortByName]
  | cons y ys ih => exact pairwise_insertByName y (sortByName ys) ih

/-- The pending list is sorted lexicographically by name. -/
theorem pending_sorted (defs : List MigrationDef) (L : Ledger) :
    (get_pending_migrations defs L).Pairwise (fun a b => a.name ≤ b.name) :=
  pairwise_sortByName _

/-- A migration selected as pending is not recorded in the ledger. -/
theorem pending_not_applied (defs : List MigrationDef) (L : Ledger)
    (m : MigrationDef) (h : m ∈ get_pending_migrations defs L) :
    m.name ∉ get_applied_migrations L := by
  unfold get_pending_migrations at h
  rw [mem_sortByName] at h
  rcases List.mem_filter.mp h with ⟨_, h2⟩
  simpa using h2

/-! ### Lemmas about a whole `_perform_migration` run -/

theorem updateVersionRecord_ledger (st : DbState) :
    (updateVersionRecord st).ledger = st.ledger := by
  unfold updateVersionRecord
  split <;> rfl

theorem updateVersionRecord_schema (st : DbState) :
    (updateVersionRecord st).schema = st.schema := by
  unfold updateVersionRecord
  split <;> rfl

/-- Characterisation of what one `_perform_migration` call does to the ledger
and trace, for any backup outcome and pending list. -/
theorem performMigration_spec (backup : Option String) (pending : List MigrationDef)
    (st : DbState) (res : Bool × String) (st2 : DbState) (tr : RunTrace)
    (h : performMigration backup pending st = (res, st2, tr)) :
    (∀ n, n ∈ get_applied_migrations st2.ledger ↔
        n ∈ get_applied_migrations st.ledger ∨ n ∈ tr.upOks) ∧
    (∀ rec, rec ∈ st2.ledger →
        rec ∈ st.ledger ∨ rec.batch = get_last_batch_number st.ledger + 1) ∧
    tr.downCalls = [] ∧
    (∀ n, n ∈ tr.upCalls → n ∈ pending.map (fun m => m.name)) ∧
    (∀ n, n ∈ tr.upOks → n ∈ tr.upCalls) := by
  unfold performMigration at h
  cases backup with
  | some e =>
    rcases h with ⟨rfl, rfl, rfl⟩
    exact ⟨by simp [RunTrace.empty], fun rec h2 => Or.inl h2, rfl,
      by simp [RunTrace.empty], by simp [RunTrace.empty]⟩
  | none =>
    dsimp only at h
    rcases hloop : performLoop (get_last_batch_number st.ledger + 1) pending
        st.schema st.ledger with ⟨r, sch2, L2, tr2⟩
    rw [hloop] at h
    obtain ⟨hb1, hb2, hb3, hb4, hb5⟩ :=
      performLoop_spec (get_last_batch_number st.ledger + 1) pending
        st.schema st.ledger r sch2 L2 tr2 hloop
    cases r with
    | some msg =>
      rcases h with ⟨rfl, rfl, rfl⟩
      exact ⟨hb1, hb2, hb3, hb4, hb5⟩
    | none =>
      dsimp only at h
      rcases h with ⟨rfl, rfl, rfl⟩
      rw [updateVersionRecord_ledger]
      exact ⟨hb1, hb2, hb3, hb4, hb5⟩

/-- Across a sequence of `_perform_migration` calls, the recorded names grow
exactly by the names whose `up()` succeeded. -/
theorem runSeq_applied (rs : List RunSpec) :
    ∀ (st : DbState) (n : String),
    n ∈ get_applied_migrations (runSeq rs st).1.ledger ↔
      n ∈ get_applied_migrations st.ledger ∨ n ∈ (runSeq rs st).2 := by
  induction rs with
  | nil =>
    intro st n
    simp [runSeq]
  | cons r rest ih =>
    intro st n
    unfold runSeq
    rcases hp : performMigration r.backup r.pending st with ⟨res, st1, tr⟩
    dsimp only
    rcases hs : runSeq rest st1 with ⟨st2, oks⟩
    dsimp only
    have h1 := (performMigration_spec r.backup r.pending st res st1 tr hp).1 n
    have h2 := ih st1 n
    rw [hs] at h2
    dsimp only at h2
    rw [List.mem_append]
    rw [h2, h1]
    tauto

/-! ### Claim theorems -/

/-- C1: for every sequence of migration runs (calls to
`MigrationManager._perform_migration`) starting from an empty ledger, the set
of migration names recorded as applied in the ledger equals the set of
migration names whose `up()` procedure has been successfully invoked at least
once. -/
theorem ledger_names_eq_successful_ups (rs : List RunSpec) (st0 : DbState)
    (h : st0.ledger = []) (n : String) :
    n ∈ get_applied_migrations (runSeq rs st0).1.ledger ↔
      n ∈ (runSeq rs st0).2 := by
  have h2 := runSeq_applied rs st0 n
  rw [h] at h2
  simpa [get_applied_migrations] using h2

/-- Witness for C1 at a concrete two-run sequence over a fresh state. -/
theorem ledger_names_eq_successful_ups_witness :
    "20260101_000000_demo" ∈
        get_applied_migrations
          (runSeq [⟨none, [demoUp]⟩, ⟨none, [demoUpRaise]⟩] demoSt0).1.ledger ↔
      "20260101_000000_demo" ∈
        (runSeq [⟨none, [demoUp]⟩, ⟨none, [demoUpRaise]⟩] demoSt0).2 :=
  ledger_names_eq_successful_ups [⟨none, [demoUp]⟩, ⟨none, [demoUpRaise]⟩]
    demoSt0 rfl "20260101_000000_demo"

/-- C3: a migration whose name is already recorded in the ledger is never
selected as pending, and its `up()` is never invoked by a run that executes
the pending migrations computed from the ledger. -/
theorem applied_migration_never_reapplied :
    (∀ (defs : List MigrationDef) (L : Ledger) (m : MigrationDef),
      m ∈ get_pending_migrations defs L → m.name ∉ get_applied_migrations L) ∧
    (∀ (defs : List MigrationDef) (backup : Option String) (st : DbState)
       (res : Bool × String) (st2 : DbState) (tr : RunTrace) (n : String),
      performMigration backup (get_pending_migrations defs st.ledger) st =
          (res, st2, tr) →
      n ∈ get_applied_migrations st.ledger → n ∉ tr.upCalls) := by
  constructor
  · exact pending_not_applied
  · intro defs backup st res st2 tr n hp hn hcall
    obtain ⟨_, _, _, h4, _⟩ :=
      performMigration_spec backup (get_pending_migrations defs st.ledger) st
        res st2 tr hp
    rcases List.mem_map.mp (h4 n hcall) with ⟨m, hm, hname⟩
    exact pending_not_applied defs st.ledger m hm (hname ▸ hn)

/-- Witness for C3 at a concrete ledger that already records the sample
migration `demoUp`: the migration still pending is not the applied one, and
the applied name is not re-invoked by the run. -/
theorem applied_migration_never_reapplied_witness :
    demoPostFail.name ∉ get_applied_migrations demoLedger1 ∧
    "20260101_000000_demo" ∉ demoRun1.2.2.upCalls :=
  ⟨applied_migration_never_reapplied.1 [demoUp, demoPostFail] demoLedger1
      demoPostFail
      (by exact List.mem_singleton.mpr rfl),
   applied_migration_never_reapplied.2 [demoUp, demoPostFail] none demoSt1
      demoRun1.1 demoRun1.2.1 demoRun1.2.2 "20260101_000000_demo" rfl
      (by simp [get_applied_migrations, demoSt1, demoLedger1])⟩

/-- If the loop completes a prefix of the pending list and the next step exits
early, `_perform_migration` returns that step's failure message with the state
the run had reached. -/
theorem performMigration_prefix_fail (st : DbState) (good : List MigrationDef)
    (m : MigrationDef) (rest : List MigrationDef) (sch1 : Schema) (L1 : Ledger)
    (tr1 : RunTrace)
    (hgood : performLoop (get_last_batch_number st.ledger + 1) good st.schema
        st.ledger = (none, sch1, L1, tr1))
    (msg : String) (sch2 : Schema) (L2 : Ledger) (trs : RunTrace)
    (hstep : performStep (get_last_batch_number st.ledger + 1) m sch1 L1 =
        (some msg, sch2, L2, trs)) :
    performMigration none (good ++ m :: rest) st =
      ((false, msg), { st with schema := sch2, ledger := L2 }, tr1.app trs) := by
  unfold performMigration
  dsimp only
  rw [performLoop_append, hgood]
  dsimp only
  rw [performLoop_cons, hstep]

/-- C2: when a pending migration's `up()` has run successfully and its
`post_check()` returns false, `_perform_migration` returns failure with a
message naming that migration; the migration is still considered to have
executed: the schema it produced is kept (no rollback of its changes), its
name is recorded in the ledger, and no `down()` is invoked. -/
theorem post_check_failure_keeps_migration (st : DbState)
    (good : List MigrationDef) (m : MigrationDef) (rest : List MigrationDef)
    (sch1 : Schema) (L1 : Ledger) (tr1 : RunTrace)
    (hgood : performLoop (get_last_batch_number st.ledger + 1) good st.schema
        st.ledger = (none, sch1, L1, tr1))
    (hpre : preOutcome m sch1 = Except.ok true)
    (sch2 : Schema) (hup : m.up sch1 = (none, sch2))
    (hpost : postOutcome m sch2 = Except.ok false) :
    performMigration none (good ++ m :: rest) st =
      ((false, "Migration post-check failed: " ++ m.name),
        { st with
          schema := sch2
          ledger := record_migration m.name (get_last_batch_number st.ledger + 1) L1 },
        tr1.app ⟨[m.name], [m.name], []⟩) ∧
    m.name ∈ get_applied_migrations
      (record_migration m.name (get_last_batch_number st.ledger + 1) L1) ∧
    (tr1.app ⟨[m.name], [m.name], []⟩).downCalls = [] := by
  have hstep : performStep (get_last_batch_number st.ledger + 1) m sch1 L1 =
      (some ("Migration post-check failed: " ++ m.name), sch2,
        record_migration m.name (get_last_batch_number st.ledger + 1) L1,
        ⟨[m.name], [m.name], []⟩) := by
    unfold performStep applySingleMigration run_migration
    rw [hpre]
    dsimp only
    rw [hup]
    dsimp only
    rw [hpost]
  obtain ⟨_, _, h3, _, _⟩ :=
    performLoop_spec (get_last_batch_number st.ledger + 1) good st.schema
      st.ledger none sch1 L1 tr1 hgood
  exact ⟨performMigration_prefix_fail st good m rest sch1 L1 tr1 hgood _ _ _ _ hstep,
    (mem_applied_record m.name m.name _ L1).mpr (Or.inr rfl),
    by simp [RunTrace.app, h3]⟩

/-- Witness for C2 on a concrete run: the sample post-check-failing migration
over a fresh state. -/
theorem post_check_failure_keeps_migration_witness :
    performMigration none ([] ++ demoPostFail :: []) demoSt0 =
      ((false, "Migration post-check failed: " ++ demoPostFail.name),
        { demoSt0 with
          schema := ["pf"]
          ledger := record_migration demoPostFail.name
            (get_last_batch_number demoSt0.ledger + 1) [] },
        RunTrace.empty.app ⟨[demoPostFail.name], [demoPostFail.name], []⟩) ∧
    demoPostFail.name ∈ get_applied_migrations
      (record_migration demoPostFail.name
        (get_last_batch_number demoSt0.ledger + 1) []) ∧
    (RunTrace.empty.app ⟨[demoPostFail.name], [demoPostFail.name], []⟩).downCalls = [] :=
  post_check_failure_keeps_migration demoSt0 [] demoPostFail [] [] [] RunTrace.empty
    rfl rfl ["pf"] rfl rfl

/-- C4: when a pending migration's `pre_check()` returns false, the run aborts
before invoking that migration's `up()` (the schema and the ledger stay as the
earlier migrations left them), returns failure with a message naming that
migration, and no later migration of the list is applied. -/
theorem pre_check_failure_aborts_run (st : DbState)
    (good : List MigrationDef) (m : MigrationDef) (rest : List MigrationDef)
    (sch1 : Schema) (L1 : Ledger) (tr1 : RunTrace)
    (hgood : performLoop (get_last_batch_number st.ledger + 1) good st.schema
        st.ledger = (none, sch1, L1, tr1))
    (hpre : preOutcome m sch1 = Except.ok false) :
    performMigration none (good ++ m :: rest) st =
      ((false, "Migration pre-check failed: " ++ m.name),
        { st with schema := sch1, ledger := L1 }, tr1) ∧
    (∀ n, n ∈ tr1.upCalls → n ∈ good.map (fun g => g.name)) := by
  have hstep : performStep (get_last_batch_number st.ledger + 1) m sch1 L1 =
      (some ("Migration pre-check failed: " ++ m.name), sch1, L1,
        RunTrace.empty) := by
    unfold performStep
    rw [hpre]
  obtain ⟨_, _, _, h4, _⟩ :=
    performLoop_spec (get_last_batch_number st.ledger + 1) good st.schema
      st.ledger none sch1 L1 tr1 hgood
  refine ⟨?_, h4⟩
  have h := performMigration_prefix_fail st good m rest sch1 L1 tr1 hgood _ _ _ _ hstep
  rwa [RunTrace.app_empty] at h

/-- Witness for C4 on a concrete run: the sample pre-check-failing migration
over a fresh state, followed by another migration that is consequently not
applied. -/
theorem pre_check_failure_aborts_run_witness :
    performMigration none ([] ++ demoPreFail :: [demoUp]) demoSt0 =
      ((false, "Migration pre-check failed: " ++ demoPreFail.name),
        { demoSt0 with schema := [], ledger := [] }, RunTrace.empty) ∧
    (∀ n, n ∈ RunTrace.empty.upCalls → n ∈ ([] : List MigrationDef).map
      (fun g => g.name)) :=
  pre_check_failure_aborts_run demoSt0 [] demoPreFail [demoUp] [] []
    RunTrace.empty rfl rfl

/-- C5: when a pending migration's `up()` raises, the run aborts and returns
failure naming that migration, and every migration applied earlier in the same
batch remains recorded in the ledger (no automatic rollback). -/
theorem up_raise_aborts_keeps_earlier (st : DbState)
    (good : List MigrationDef) (m : MigrationDef) (rest : List MigrationDef)
    (sch1 : Schema) (L1 : Ledger) (tr1 : RunTrace)
    (hgood : performLoop (get_last_batch_number st.ledger + 1) good st.schema
        st.ledger = (none, sch1, L1, tr1))
    (hpre : preOutcome m sch1 = Except.ok true)
    (e : String) (schF : Schema) (hup : m.up sch1 = (some e, schF)) :
    performMigration none (good ++ m :: rest) st =
      ((false, "Migration failed: " ++ m.name),
        { st with schema := schF, ledger := L1 }, tr1.app ⟨[m.name], [], []⟩) ∧
    (∀ n, n ∈ tr1.upOks → n ∈ get_applied_migrations L1) := by
  have hstep : performStep (get_last_batch_number st.ledger + 1) m sch1 L1 =
      (some ("Migration failed: " ++ m.name), schF, L1, ⟨[m.name], [], []⟩) := by
    unfold performStep applySingleMigration run_migration
    rw [hpre]
    dsimp only
    rw [hup]
  obtain ⟨h1, _, _, _, _⟩ :=
    performLoop_spec (get_last_batch_number st.ledger + 1) good st.schema
      st.ledger none sch1 L1 tr1 hgood
  exact ⟨performMigration_prefix_fail st good m rest sch1 L1 tr1 hgood _ _ _ _ hstep,
    fun n hn => (h1 n).mpr (Or.inr hn)⟩

/-- Witness for C5 on a concrete run: a successful migration followed by one
whose `up()` raises; the first stays recorded. -/
theorem up_raise_aborts_keeps_earlier_witness :
    performMigration none ([demoUp] ++ demoUpRaise :: []) demoSt0 =
      ((false, "Migration failed: " ++ demoUpRaise.name),
        { demoSt0 with
          schema := ["demo"]
          ledger := [⟨"20260101_000000_demo", 1⟩] },
        (⟨["20260101_000000_demo"], ["20260101_000000_demo"], []⟩ : RunTrace).app
          ⟨[demoUpRaise.name], [], []⟩) ∧
    (∀ n, n ∈ (⟨["20260101_000000_demo"], ["20260101_000000_demo"], []⟩ :
        RunTrace).upOks →
      n ∈ get_applied_migrations [⟨"20260101_000000_demo", 1⟩]) :=
  up_raise_aborts_keeps_earlier demoSt0 [demoUp] demoUpRaise [] ["demo"]
    [⟨"20260101_000000_demo", 1⟩]
    ⟨["20260101_000000_demo"], ["20260101_000000_demo"], []⟩ rfl rfl "boom" ["demo"]
    rfl

/-- C6: a migration run executes the pending migrations in lexicographic
order of their names, records each successful migration individually (the
final ledger names are exactly the prior names plus the names whose `up()`
succeeded, even on partial failure mid-batch), and records every migration of
one run with the same batch number, one more than the largest batch number
previously in the ledger. -/
theorem run_order_batch_and_individual_records :
    (∀ (defs : List MigrationDef) (L : Ledger),
      (get_pending_migrations defs L).Pairwise (fun a b => a.name ≤ b.name)) ∧
    (∀ (pending : List MigrationDef) (st : DbState) (res : Bool × String)
        (st2 : DbState) (tr : RunTrace),
      performMigration none pending st = (res, st2, tr) →
      (∀ rec, rec ∈ st2.ledger →
        rec ∈ st.ledger ∨ rec.batch = get_last_batch_number st.ledger + 1) ∧
      (∀ n, n ∈ get_applied_migrations st2.ledger ↔
        n ∈ get_applied_migrations st.ledger ∨ n ∈ tr.upOks)) := by
  constructor
  · intro defs L
    exact pending_sorted defs L
  · intro pending st res st2 tr h
    obtain ⟨h1, h2, _, _, _⟩ := performMigration_spec none pending st res st2 tr h
    exact ⟨h2, h1⟩

/-- Witness for C6 on a concrete run of the sample migration over a fresh
state. -/
theorem run_order_batch_and_individual_records_witness :
    (get_pending_migrations [demoUp, demoPostFail] []).Pairwise
      (fun a b => a.name ≤ b.name) ∧
    ((⟨"20260101_000000_demo", 1⟩ : MigrationRecord) ∈ demoSt0.ledger ∨
      (⟨"20260101_000000_demo", 1⟩ : MigrationRecord).batch =
        get_last_batch_number demoSt0.ledger + 1) ∧
    ("20260101_000000_demo" ∈ get_applied_migrations demoRun0.2.1.ledger ↔
      "20260101_000000_demo" ∈ get_applied_migrations demoSt0.ledger ∨
        "20260101_000000_demo" ∈ demoRun0.2.2.upOks) :=
  ⟨run_order_batch_and_individual_records.1 [demoUp, demoPostFail] [],
   (run_order_batch_and_individual_records.2 [demoUp] demoSt0 demoRun0.1
      demoRun0.2.1 demoRun0.2.2 rfl).1 ⟨"20260101_000000_demo", 1⟩
      (List.mem_singleton.mpr rfl),
   (run_order_batch_and_individual_records.2 [demoUp] demoSt0 demoRun0.1
      demoRun0.2.1 demoRun0.2.2 rfl).2 "20260101_000000_demo"⟩

/-- C7: `check_and_migrate` always returns a (bool, message) pair, and the
handler of `_perform_migration` converts an uncaught raise of its body into a
returned `(false, message)` pair instead of propagating it. -/
theorem check_and_migrate_returns_pair :
    (∀ (env : Env) (autoMigrate : Bool) (st : DbState),
      ∃ b msg st2 tr,
        checkAndMigrate env autoMigrate st = ((b, msg), st2, tr)) ∧
    (∀ (backup : Option String) (pending : List MigrationDef) (st : DbState),
      (∃ r st2 tr,
          performMigrationRaw backup pending st = (Except.ok r, st2, tr) ∧
          performMigration backup pending st = (r, st2, tr)) ∨
      (∃ e st2 tr,
          performMigrationRaw backup pending st = (Except.error e, st2, tr) ∧
          performMigration backup pending st =
            ((false, "Migration failed: " ++ e), st2, tr))) := by
  constructor
  · intro env am st
    rcases checkAndMigrate env am st with ⟨⟨b, msg⟩, st2, tr⟩
    exact ⟨b, msg, st2, tr, rfl⟩
  · intro backup pending st
    cases backup with
    | some e =>
      right
      exact ⟨e, st, RunTrace.empty, rfl, rfl⟩
    | none =>
      left
      unfold performMigration performMigrationRaw
      dsimp only
      rcases hl : performLoop (get_last_batch_number st.ledger + 1) pending
          st.schema st.ledger with ⟨r, sch2, L2, tr⟩
      cases r with
      | some msg => exact ⟨_, _, _, rfl, rfl⟩
      | none => exact ⟨_, _, _, rfl, rfl⟩

/-- C8: the "no active connections" validation check is a no-op for SQLite:
for every database state it inspects nothing, mutates nothing, and returns
successfully instead of raising `MigrationValidationError`. -/
theorem check_no_active_connections_is_noop :
    ∀ st : DbState, check_no_active_connections st = Except.ok ((), st) :=
  fun _ => rfl

/-- C9: the rollback of the soft-delete migration is deliberately
unimplemented: for every table layout it returns the layout unchanged (every
table keeps every column, in particular deleted_at, deleted_by and
deletion_reason) and only emits warning and error log records. -/
theorem soft_delete_rollback_is_noop (db : TableSchema) :
    (softDeleteRollback db).1 = db ∧
    (∀ t cols, (t, cols) ∈ db → (t, cols) ∈ (softDeleteRollback db).1) ∧
    (∀ en, en ∈ (softDeleteRollback db).2 →
      en.level = LogLevel.warning ∨ en.level = LogLevel.error) := by
  refine ⟨rfl, fun t cols h => h, ?_⟩
  intro en hen
  simp only [softDeleteRollback, List.mem_cons, List.not_mem_nil, or_false] at hen
  rcases hen with rfl | rfl | rfl | rfl | rfl
  · exact Or.inl rfl
  · exact Or.inl rfl
  · exact Or.inl rfl
  · exact Or.inr rfl
  · exact Or.inr rfl

/-- Witness for C9 at a concrete table layout with the soft-delete columns. -/
theorem soft_delete_rollback_is_noop_witness :
    (softDeleteRollback demoTables).1 = demoTables ∧
    ("employees", ["id", "deleted_at", "deleted_by", "deletion_reason"]) ∈
      (softDeleteRollback demoTables).1 ∧
    ((⟨LogLevel.error, "Rollback not implemented for safety reasons."⟩ :
        LogEntry).level = LogLevel.warning ∨
      (⟨LogLevel.error, "Rollback not implemented for safety reasons."⟩ :
        LogEntry).level = LogLevel.error) :=
  ⟨(soft_delete_rollback_is_noop demoTables).1,
   (soft_delete_rollback_is_noop demoTables).2.1 "employees"
      ["id", "deleted_at", "deleted_by", "deletion_reason"]
      (List.mem_singleton.mpr rfl),
   (soft_delete_rollback_is_noop demoTables).2.2
      ⟨LogLevel.error, "Rollback not implemented for safety reasons."⟩
      (by simp [softDeleteRollback])⟩

/-- C10 (divergence witness): on a fresh database state with one pending
migration, `check_and_migrate` with `auto_migrate = False` does apply no
migration and leaves the ledger unchanged, but it returns
`(True, "Database is up to date")` instead of a `(False, ...)` pair reporting
the pending count, because `initialize_version_tracking` has already written
`APP_VERSION`, making `check_migration_needed()` false. -/
theorem check_and_migrate_pending_not_reported :
    (get_pending_migrations demoEnv.defs demoSt0.ledger).length = 1 ∧
    checkAndMigrate demoEnv false demoSt0 =
      ((true, "Database is up to date"),
        { demoSt0 with version := some APP_VERSION }, RunTrace.empty) := by
  exact ⟨rfl, rfl⟩

end Wareflow
